import Mathlib

/-
Verification of the core of the HyperLiquidMM market-making engine
(backend/mm-engine-rs).  The Rust source is shallowly embedded: f64
arithmetic is modelled by exact rationals (ℚ), `f64::round` (round half
away from zero) by `rustRound`, `f64::clamp` / `i32::clamp` by `clampQ` /
`clampI`, hash maps keyed by coin by total functions `String → ℚ` with the
source's `get(..).unwrap_or(0.0)` default-zero semantics, and fallible or
external calls (the exchange client) by explicit result parameters.
-/

namespace MmEngine

/-- Rust `f64::round`: round to the nearest integer, ties away from zero. -/
def rustRound (q : ℚ) : ℤ :=
  if q < 0 then -⌊-q + 1 / 2⌋ else ⌊q + 1 / 2⌋

/-- Rust `f64::clamp(lo, hi)`: `if self < min { min } else if self > max { max } else { self }`. -/
def clampQ (x lo hi : ℚ) : ℚ :=
  if x < lo then lo else if hi < x then hi else x

/-- Rust `i32::clamp(lo, hi)`. -/
def clampI (x lo hi : ℤ) : ℤ :=
  if x < lo then lo else if hi < x then hi else x

-- ── market_maker.rs : data model ────────────────────────────────────────────

/-- Per-asset configuration (`MmAssetConfig`, market_maker.rs:17-33). -/
structure MmAssetConfig where
  asset : String
  tick_size : ℚ
  min_order_usd : ℚ
  max_inv_usd : ℚ
  base_spread_bps : ℚ
  atr_fraction : ℚ
  regime : String
deriving DecidableEq

/-- A single resting order in the quote grid (`GridQuote`, market_maker.rs:53-63). -/
structure GridQuote where
  side : String
  layer : ℕ
  price : ℚ
  size_usd : ℚ
  oid : Option ℕ
deriving DecidableEq

/-- The full quote grid for one asset (`QuoteGrid`, market_maker.rs:67-70). -/
structure QuoteGrid where
  bids : List GridQuote
  asks : List GridQuote
deriving DecidableEq

/-- Snaps a price to the nearest valid tick size (`snap_to_tick`, market_maker.rs:171-174). -/
def snap_to_tick (price tick_size : ℚ) : ℚ :=
  if tick_size ≤ 0 then price
  else (rustRound (price / tick_size) : ℚ) * tick_size

/-- The `effective_spread` local of `compute_quote_grid` (market_maker.rs:103-104):
`base_half_spread * regime_multiplier` with
`base_half_spread = mid_price * (base_spread_bps / 10_000)`. -/
def effective_spread (mid_price : ℚ) (config : MmAssetConfig) (regime_multiplier : ℚ) : ℚ :=
  (mid_price * (config.base_spread_bps / 10000)) * regime_multiplier

/-- The `min_distance_from_mid` local of `compute_quote_grid` (market_maker.rs:113):
`mid_price * (1.5 / 10_000)`. -/
def min_distance_from_mid (mid_price : ℚ) : ℚ :=
  mid_price * ((3 / 2) / 10000)

/-- The `max_allowed_skew` local of `compute_quote_grid` (market_maker.rs:114):
`(effective_spread - min_distance_from_mid).max(0.0)`. -/
def max_allowed_skew (mid_price : ℚ) (config : MmAssetConfig) (regime_multiplier : ℚ) : ℚ :=
  max (effective_spread mid_price config regime_multiplier - min_distance_from_mid mid_price) 0

/-- The capped `skew_amount` local of `compute_quote_grid` (market_maker.rs:106-115):
`inv_fraction * effective_spread * 1.5` clamped to `±max_allowed_skew`, with
`inv_fraction = (inv_usd / max_inv_usd).clamp(-1, 1)`. -/
def skew_amount (mid_price : ℚ) (config : MmAssetConfig) (inv_usd regime_multiplier : ℚ) : ℚ :=
  let inv_fraction := clampQ (inv_usd / config.max_inv_usd) (-1) 1
  clampQ (inv_fraction * effective_spread mid_price config regime_multiplier * (3 / 2))
    (-(max_allowed_skew mid_price config regime_multiplier))
    (max_allowed_skew mid_price config regime_multiplier)

/-- Computes the 3-tier post-only quote grid for one asset
(`compute_quote_grid`, market_maker.rs:91-168).  `max_layers` embeds the
`MM_MAX_LAYERS` environment input of market_maker.rs:129-130. -/
def compute_quote_grid (mid_price : ℚ) (config : MmAssetConfig)
    (inv_usd regime_multiplier : ℚ) (suppress_bids suppress_asks : Bool)
    (max_layers : ℕ) : QuoteGrid :=
  if config.regime = "halt" ∨ mid_price ≤ 0 then { bids := [], asks := [] }
  else
    let eff := effective_spread mid_price config regime_multiplier
    let skew := skew_amount mid_price config inv_usd regime_multiplier
    let spreads : List ℚ := [eff, eff * (5 / 2), eff * 5]
    let base_sz := max config.min_order_usd 12
    let sizes : List ℚ := [base_sz, base_sz * 2, base_sz * 3]
    let layers := (List.enum (spreads.zip sizes)).take max_layers
    { bids :=
        if suppress_bids then []
        else layers.filterMap fun pr =>
          let bid_price := snap_to_tick (mid_price - pr.2.1 - skew) config.tick_size
          if 0 < bid_price then
            some { side := "bid", layer := pr.1 + 1, price := bid_price,
                   size_usd := pr.2.2, oid := none }
          else none,
      asks :=
        if suppress_asks then []
        else layers.filterMap fun pr =>
          let ask_price := snap_to_tick (mid_price + pr.2.1 - skew) config.tick_size
          if mid_price * (9 / 10) < ask_price then
            some { side := "ask", layer := pr.1 + 1, price := ask_price,
                   size_usd := pr.2.2, oid := none }
          else none }

-- ── basic lemmas about the float-operation models ───────────────────────────

lemma rustRound_sub_le (q : ℚ) : |(rustRound q : ℚ) - q| ≤ 1 / 2 := by
  unfold rustRound
  split
  · rw [abs_le]
    push_cast
    constructor
    · have := Int.floor_le (-q + 1 / 2)
      linarith
    · have := Int.lt_floor_add_one (-q + 1 / 2)
      linarith
  · rw [abs_le]
    constructor
    · have := Int.lt_floor_add_one (q + 1 / 2)
      linarith
    · have := Int.floor_le (q + 1 / 2)
      linarith

lemma rustRound_mono {q r : ℚ} (h : q ≤ r) : rustRound q ≤ rustRound r := by
  unfold rustRound
  split <;> split
  · simp only [neg_le_neg_iff]
    exact Int.floor_le_floor (by linarith)
  · have h1 : (0 : ℤ) ≤ ⌊-q + 1 / 2⌋ := by
      apply Int.floor_nonneg.mpr
      linarith
    have h2 : (0 : ℤ) ≤ ⌊r + 1 / 2⌋ := by
      apply Int.floor_nonneg.mpr
      linarith
    omega
  · linarith
  · exact Int.floor_le_floor (by linarith)

lemma clampQ_le_right {x lo hi : ℚ} (h : lo ≤ hi) : clampQ x lo hi ≤ hi := by
  unfold clampQ
  split_ifs <;> linarith

lemma clampQ_le_left {x lo hi : ℚ} (h : lo ≤ hi) : lo ≤ clampQ x lo hi := by
  unfold clampQ
  split_ifs <;> linarith

lemma clampQ_mono {x y lo hi : ℚ} (hlh : lo ≤ hi) (h : x ≤ y) :
    clampQ x lo hi ≤ clampQ y lo hi := by
  unfold clampQ
  split_ifs <;> linarith

lemma abs_clampQ {x m : ℚ} (hm : 0 ≤ m) : |clampQ x (-m) m| ≤ m := by
  rw [abs_le]
  exact ⟨clampQ_le_left (by linarith), clampQ_le_right (by linarith)⟩

lemma clampQ_of_le {x m : ℚ} (hm : 0 ≤ m) (hx : m ≤ x) : clampQ x (-m) m = m := by
  unfold clampQ
  rcases lt_or_le m x with h | h
  · rw [if_neg (by linarith), if_pos h]
  · rw [if_neg (by linarith), if_neg (by linarith)]
    linarith

lemma clampQ_of_ge {x m : ℚ} (hm : 0 ≤ m) (hx : x ≤ -m) : clampQ x (-m) m = -m := by
  unfold clampQ
  rcases lt_or_le x (-m) with h | h
  · rw [if_pos h]
  · rw [if_neg (by linarith), if_neg (by linarith)]
    linarith

lemma snap_to_tick_pos_def {t : ℚ} (ht : 0 < t) (p : ℚ) :
    snap_to_tick p t = (rustRound (p / t) : ℚ) * t := by
  unfold snap_to_tick
  rw [if_neg (by linarith)]

lemma snap_to_tick_dist {t : ℚ} (ht : 0 < t) (p : ℚ) : |snap_to_tick p t - p| ≤ t / 2 := by
  rw [snap_to_tick_pos_def ht]
  have h := rustRound_sub_le (p / t)
  have hsplit : (rustRound (p / t) : ℚ) * t - p = ((rustRound (p / t) : ℚ) - p / t) * t := by
    field_simp
  rw [hsplit, abs_mul, abs_of_pos ht]
  calc |(rustRound (p / t) : ℚ) - p / t| * t ≤ (1 / 2) * t :=
        mul_le_mul_of_nonneg_right h ht.le
    _ = t / 2 := by ring

lemma snap_to_tick_mono {t : ℚ} (ht : 0 < t) {p q : ℚ} (h : p ≤ q) :
    snap_to_tick p t ≤ snap_to_tick q t := by
  rw [snap_to_tick_pos_def ht, snap_to_tick_pos_def ht]
  have hr : rustRound (p / t) ≤ rustRound (q / t) :=
    rustRound_mono (by gcongr)
  have hrq : (rustRound (p / t) : ℚ) ≤ (rustRound (q / t) : ℚ) := by exact_mod_cast hr
  exact mul_le_mul_of_nonneg_right hrq ht.le

lemma snap_to_tick_is_multiple {t : ℚ} (ht : 0 < t) (p : ℚ) :
    ∃ k : ℤ, snap_to_tick p t = (k : ℚ) * t :=
  ⟨rustRound (p / t), snap_to_tick_pos_def ht p⟩

-- ── structure of grid membership ────────────────────────────────────────────

/-- The three per-layer spreads `[eff, 2.5·eff, 5·eff]` of market_maker.rs:118-122,
indexed by layer position. -/
def layer_spread (eff : ℚ) : ℕ → ℚ
  | 0 => eff
  | 1 => eff * (5 / 2)
  | _ => eff * 5

lemma enum_zip_three (a b c d e f : ℚ) :
    List.enum ([a, b, c].zip [d, e, f]) = [(0, (a, d)), (1, (b, e)), (2, (c, f))] := rfl

lemma mem_bids_elim {mid : ℚ} {cfg : MmAssetConfig} {inv rm : ℚ} {sb sa : Bool} {ml : ℕ}
    {q : GridQuote} (hq : q ∈ (compute_quote_grid mid cfg inv rm sb sa ml).bids) :
    ∃ i : ℕ, i < 3 ∧ q.layer = i + 1 ∧
      q.price = snap_to_tick
        (mid - layer_spread (effective_spread mid cfg rm) i - skew_amount mid cfg inv rm)
        cfg.tick_size ∧
      0 < q.price := by
  unfold compute_quote_grid at hq
  by_cases hhalt : cfg.regime = "halt" ∨ mid ≤ 0
  · rw [if_pos hhalt] at hq
    simp at hq
  · rw [if_neg hhalt] at hq
    simp only [enum_zip_three] at hq
    by_cases hsb : sb
    · simp [hsb] at hq
    · simp only [hsb, if_false, Bool.false_eq_true, List.mem_filterMap] at hq
      obtain ⟨pr, hpr, hf⟩ := hq
      have hpr' := List.take_subset _ _ hpr
      simp only [List.mem_cons, List.not_mem_nil, or_false] at hpr'
      rcases hpr' with h | h | h <;> subst h <;>
        simp only at hf <;> split_ifs at hf with h0 <;>
        cases hf
      · exact ⟨0, by norm_num, rfl, rfl, h0⟩
      · exact ⟨1, by norm_num, rfl, rfl, h0⟩
      · exact ⟨2, by norm_num, rfl, rfl, h0⟩

lemma mem_asks_elim {mid : ℚ} {cfg : MmAssetConfig} {inv rm : ℚ} {sb sa : Bool} {ml : ℕ}
    {q : GridQuote} (hq : q ∈ (compute_quote_grid mid cfg inv rm sb sa ml).asks) :
    ∃ i : ℕ, i < 3 ∧ q.layer = i + 1 ∧
      q.price = snap_to_tick
        (mid + layer_spread (effective_spread mid cfg rm) i - skew_amount mid cfg inv rm)
        cfg.tick_size ∧
      mid * (9 / 10) < q.price := by
  unfold compute_quote_grid at hq
  by_cases hhalt : cfg.regime = "halt" ∨ mid ≤ 0
  · rw [if_pos hhalt] at hq
    simp at hq
  · rw [if_neg hhalt] at hq
    simp only [enum_zip_three] at hq
    by_cases hsa : sa
    · simp [hsa] at hq
    · simp only [hsa, if_false, Bool.false_eq_true, List.mem_filterMap] at hq
      obtain ⟨pr, hpr, hf⟩ := hq
      have hpr' := List.take_subset _ _ hpr
      simp only [List.mem_cons, List.not_mem_nil, or_false] at hpr'
      rcases hpr' with h | h | h <;> subst h <;>
        simp only at hf <;> split_ifs at hf with h0 <;>
        cases hf
      · exact ⟨0, by norm_num, rfl, rfl, h0⟩
      · exact ⟨1, by norm_num, rfl, rfl, h0⟩
      · exact ⟨2, by norm_num, rfl, rfl, h0⟩

lemma eff_le_layer_spread {eff : ℚ} (heff : 0 ≤ eff) (i : ℕ) : eff ≤ layer_spread eff i :=
  match i with
  | 0 => le_of_eq rfl
  | 1 => by show eff ≤ eff * (5 / 2); linarith
  | _ + 2 => by show eff ≤ eff * 5; linarith

lemma max_allowed_skew_nonneg (mid : ℚ) (cfg : MmAssetConfig) (rm : ℚ) :
    0 ≤ max_allowed_skew mid cfg rm :=
  le_max_right _ _

lemma abs_skew_le (mid : ℚ) (cfg : MmAssetConfig) (inv rm : ℚ) :
    |skew_amount mid cfg inv rm| ≤ max_allowed_skew mid cfg rm := by
  unfold skew_amount
  exact abs_clampQ (max_allowed_skew_nonneg mid cfg rm)

lemma eff_sub_max_allowed (mid : ℚ) (cfg : MmAssetConfig) (rm : ℚ) :
    effective_spread mid cfg rm - max_allowed_skew mid cfg rm
      = min (effective_spread mid cfg rm) (min_distance_from_mid mid) := by
  unfold max_allowed_skew
  rcases le_total (effective_spread mid cfg rm) (min_distance_from_mid mid) with h | h
  · rw [max_eq_right (by linarith), min_eq_left h]
    ring
  · rw [max_eq_left (by linarith), min_eq_right h]
    ring

-- ── C1 ──────────────────────────────────────────────────────────────────────

/-- C1 (amended): for every grid computed by `compute_quote_grid` with `mid > 0` and a
non-halt config whose `tick_size`, `base_spread_bps`, `max_inv_usd` and the regime
multiplier are positive: every bid price is strictly below `mid + tick_size / 2`,
every ask price is strictly above `0.9 · mid`, and every quoted price is an integer
multiple of `tick_size`.  The original claim's "every bid strictly below mid" fails:
snapping to the tick grid can round a bid up to mid or beyond (counterexample below). -/
theorem c1_grid_price_invariants (mid : ℚ) (cfg : MmAssetConfig) (inv rm : ℚ)
    (sb sa : Bool) (ml : ℕ) (hmid : 0 < mid) (hhalt : cfg.regime ≠ "halt")
    (htick : 0 < cfg.tick_size) (hbps : 0 < cfg.base_spread_bps) (hrm : 0 < rm)
    (hmax : 0 < cfg.max_inv_usd) :
    (∀ b ∈ (compute_quote_grid mid cfg inv rm sb sa ml).bids,
        b.price < mid + cfg.tick_size / 2) ∧
    (∀ a ∈ (compute_quote_grid mid cfg inv rm sb sa ml).asks,
        mid * (9 / 10) < a.price) ∧
    (∀ q ∈ (compute_quote_grid mid cfg inv rm sb sa ml).bids
          ++ (compute_quote_grid mid cfg inv rm sb sa ml).asks,
        ∃ k : ℤ, q.price = (k : ℚ) * cfg.tick_size) := by
  have heff : 0 < effective_spread mid cfg rm := by
    unfold effective_spread
    positivity
  have hmind : 0 < min_distance_from_mid mid := by
    unfold min_distance_from_mid
    positivity
  refine ⟨?_, ?_, ?_⟩
  · intro b hb
    obtain ⟨i, _, _, hpr, _⟩ := mem_bids_elim hb
    have hsp := eff_le_layer_spread heff.le i
    have hskew := abs_le.mp (abs_skew_le mid cfg inv rm)
    have hdist := abs_le.mp (snap_to_tick_dist htick
      (mid - layer_spread (effective_spread mid cfg rm) i - skew_amount mid cfg inv rm))
    rw [← hpr] at hdist
    have hid := eff_sub_max_allowed mid cfg rm
    have hminpos : 0 < min (effective_spread mid cfg rm) (min_distance_from_mid mid) :=
      lt_min heff hmind
    linarith [hdist.2, hskew.1]
  · intro a ha
    obtain ⟨_, _, _, _, h⟩ := mem_asks_elim ha
    exact h
  · intro q hq
    rw [List.mem_append] at hq
    rcases hq with hq | hq
    · obtain ⟨_, _, _, hpr, _⟩ := mem_bids_elim hq
      rw [hpr]
      exact snap_to_tick_is_multiple htick _
    · obtain ⟨_, _, _, hpr, _⟩ := mem_asks_elim hq
      rw [hpr]
      exact snap_to_tick_is_multiple htick _

/-- Default `MmAssetConfig` (market_maker.rs:35-47): BTC, tick 0.1, min order 10 USD,
inventory cap 20 USD, base spread 1.5 bps, ATR 0.002, regime "calm". -/
def default_asset_config : MmAssetConfig :=
  { asset := "BTC", tick_size := 1 / 10, min_order_usd := 10, max_inv_usd := 20,
    base_spread_bps := 3 / 2, atr_fraction := 1 / 500, regime := "calm" }

lemma default_grid_bids_eq :
    (compute_quote_grid 100 default_asset_config 0 1 false false 1).bids
      = [{ side := "bid", layer := 1, price := 100, size_usd := 12, oid := none }] := by
  norm_num [compute_quote_grid, default_asset_config, skew_amount, max_allowed_skew,
    effective_spread, min_distance_from_mid, clampQ, snap_to_tick, rustRound,
    List.filterMap, Int.floor_eq_iff]
  rw [if_neg (by decide)]

/-- C1 counterexample: with the default config (tick 0.1, 1.5 bps base spread), mid 100,
neutral inventory and calm regime, the single computed bid snaps to exactly 100 = mid,
so it is not strictly below mid. -/
theorem c1_counterexample :
    ¬ (∀ b ∈ (compute_quote_grid 100 default_asset_config 0 1 false false 1).bids,
        b.price < 100) := by
  rw [default_grid_bids_eq]
  intro h
  have := h _ (List.mem_singleton_self _)
  exact absurd this (by norm_num)

/-- C1 witness: the amended invariants instantiated on the default config at mid 100. -/
theorem c1_witness :
    (0 : ℚ) < 100 ∧ default_asset_config.regime ≠ "halt" ∧
    (0 : ℚ) < default_asset_config.tick_size ∧
    (0 : ℚ) < default_asset_config.base_spread_bps ∧ (0 : ℚ) < 1 ∧
    (0 : ℚ) < default_asset_config.max_inv_usd ∧
    ((∀ b ∈ (compute_quote_grid 100 default_asset_config 0 1 false false 1).bids,
        b.price < 100 + default_asset_config.tick_size / 2) ∧
     (∀ a ∈ (compute_quote_grid 100 default_asset_config 0 1 false false 1).asks,
        (100 : ℚ) * (9 / 10) < a.price) ∧
     (∀ q ∈ (compute_quote_grid 100 default_asset_config 0 1 false false 1).bids
           ++ (compute_quote_grid 100 default_asset_config 0 1 false false 1).asks,
        ∃ k : ℤ, q.price = (k : ℚ) * default_asset_config.tick_size)) :=
  ⟨by norm_num, by decide, by norm_num [default_asset_config],
   by norm_num [default_asset_config], by norm_num,
   by norm_num [default_asset_config],
   c1_grid_price_invariants 100 default_asset_config 0 1 false false 1
     (by norm_num) (by decide) (by norm_num [default_asset_config])
     (by norm_num [default_asset_config]) (by norm_num)
     (by norm_num [default_asset_config])⟩

-- ── C9 ──────────────────────────────────────────────────────────────────────

/-- C9: `compute_quote_grid` is total, and whenever the config regime is "halt" or the
mid price is non-positive it returns the empty grid (no bids, no asks) instead of
failing. -/
theorem c9_halt_or_nonpos_mid_empty (mid : ℚ) (cfg : MmAssetConfig) (inv rm : ℚ)
    (sb sa : Bool) (ml : ℕ) (h : cfg.regime = "halt" ∨ mid ≤ 0) :
    compute_quote_grid mid cfg inv rm sb sa ml = { bids := [], asks := [] } := by
  unfold compute_quote_grid
  rw [if_pos h]

/-- C9 witness: a halt-regime config at mid 100 yields the empty grid. -/
theorem c9_witness :
    ({ default_asset_config with regime := "halt" } : MmAssetConfig).regime = "halt" ∧
    compute_quote_grid 100 { default_asset_config with regime := "halt" } 0 1 false false 1
      = { bids := [], asks := [] } :=
  ⟨rfl, c9_halt_or_nonpos_mid_empty 100 _ 0 1 false false 1 (Or.inl rfl)⟩

-- ── C2 ──────────────────────────────────────────────────────────────────────

/-- C2 (amended): the capped skew satisfies `|skew| ≤ max(eff − min_dist, 0)` (equal to
`eff − min_dist` whenever `eff ≥ min_dist`, the original bound), and every quote of the
grid lies at least `min(eff, min_dist) − tick_size / 2` away from mid.  The unsnapped
quote offsets lie at least `min(eff, min_dist)` from mid, but snapping moves a price by
up to half a tick, so the original "no quote within min_dist of mid" fails
(counterexample below). -/
theorem c2_skew_cap_and_quote_distance (mid : ℚ) (cfg : MmAssetConfig) (inv rm : ℚ)
    (sb sa : Bool) (ml : ℕ) (hmid : 0 < mid) (hhalt : cfg.regime ≠ "halt")
    (htick : 0 < cfg.tick_size) (hbps : 0 < cfg.base_spread_bps) (hrm : 0 < rm)
    (hmax : 0 < cfg.max_inv_usd) :
    |skew_amount mid cfg inv rm|
      ≤ max (effective_spread mid cfg rm - min_distance_from_mid mid) 0 ∧
    ∀ q ∈ (compute_quote_grid mid cfg inv rm sb sa ml).bids
         ++ (compute_quote_grid mid cfg inv rm sb sa ml).asks,
      min (effective_spread mid cfg rm) (min_distance_from_mid mid) - cfg.tick_size / 2
        ≤ |q.price - mid| := by
  have heff : 0 < effective_spread mid cfg rm := by
    unfold effective_spread
    positivity
  constructor
  · exact abs_skew_le mid cfg inv rm
  · intro q hq
    have hskew := abs_le.mp (abs_skew_le mid cfg inv rm)
    have hid := eff_sub_max_allowed mid cfg rm
    rw [List.mem_append] at hq
    rcases hq with hq | hq
    · obtain ⟨i, _, _, hpr, _⟩ := mem_bids_elim hq
      have hsp := eff_le_layer_spread heff.le i
      have hdist := abs_le.mp (snap_to_tick_dist htick
        (mid - layer_spread (effective_spread mid cfg rm) i - skew_amount mid cfg inv rm))
      rw [← hpr] at hdist
      linarith [hdist.2, hskew.1, neg_le_abs (q.price - mid)]
    · obtain ⟨i, _, _, hpr, _⟩ := mem_asks_elim hq
      have hsp := eff_le_layer_spread heff.le i
      have hdist := abs_le.mp (snap_to_tick_dist htick
        (mid + layer_spread (effective_spread mid cfg rm) i - skew_amount mid cfg inv rm))
      rw [← hpr] at hdist
      linarith [hdist.1, hskew.2, le_abs_self (q.price - mid)]

/-- C2 counterexample: with the default config at mid 100 the capped skew is 0 and the
computed bid snaps to exactly mid, i.e. it lies within `min_dist = 0.015` of mid, so
"no computed quote lies within min_dist of mid" is false. -/
theorem c2_counterexample :
    ¬ (∀ q ∈ (compute_quote_grid 100 default_asset_config 0 1 false false 1).bids,
        min_distance_from_mid 100 ≤ |q.price - 100|) := by
  rw [default_grid_bids_eq]
  intro h
  have := h _ (List.mem_singleton_self _)
  rw [show |(100 : ℚ) - 100| = 0 by norm_num] at this
  exact absurd this (by norm_num [min_distance_from_mid])

/-- C2 witness: the amended skew cap and quote-distance bound instantiated on the
default config at mid 100, inventory +20 (at the cap). -/
theorem c2_witness :
    (0 : ℚ) < 100 ∧ default_asset_config.regime ≠ "halt" ∧
    (0 : ℚ) < default_asset_config.tick_size ∧
    (0 : ℚ) < default_asset_config.base_spread_bps ∧ (0 : ℚ) < 1 ∧
    (0 : ℚ) < default_asset_config.max_inv_usd ∧
    (|skew_amount 100 default_asset_config 20 1|
        ≤ max (effective_spread 100 default_asset_config 1 - min_distance_from_mid 100) 0 ∧
      ∀ q ∈ (compute_quote_grid 100 default_asset_config 20 1 false false 1).bids
           ++ (compute_quote_grid 100 default_asset_config 20 1 false false 1).asks,
        min (effective_spread 100 default_asset_config 1) (min_distance_from_mid 100)
            - default_asset_config.tick_size / 2
          ≤ |q.price - 100|) :=
  ⟨by norm_num, by decide, by norm_num [default_asset_config],
   by norm_num [default_asset_config], by norm_num,
   by norm_num [default_asset_config],
   c2_skew_cap_and_quote_distance 100 default_asset_config 20 1 false false 1
     (by norm_num) (by decide) (by norm_num [default_asset_config])
     (by norm_num [default_asset_config]) (by norm_num)
     (by norm_num [default_asset_config])⟩

-- ── C7 ──────────────────────────────────────────────────────────────────────

lemma skew_amount_mono (mid : ℚ) (cfg : MmAssetConfig) (rm : ℚ)
    (heff : 0 ≤ effective_spread mid cfg rm) (hmax : 0 < cfg.max_inv_usd)
    {inv1 inv2 : ℚ} (h : inv1 ≤ inv2) :
    skew_amount mid cfg inv1 rm ≤ skew_amount mid cfg inv2 rm := by
  unfold skew_amount
  have hM := max_allowed_skew_nonneg mid cfg rm
  apply clampQ_mono (by linarith)
  have h1 : clampQ (inv1 / cfg.max_inv_usd) (-1) 1 ≤ clampQ (inv2 / cfg.max_inv_usd) (-1) 1 :=
    clampQ_mono (by norm_num) (by gcongr)
  exact mul_le_mul_of_nonneg_right (mul_le_mul_of_nonneg_right h1 heff) (by norm_num)

lemma skew_amount_at_pos_cap (mid : ℚ) (cfg : MmAssetConfig) (rm : ℚ)
    (heff : 0 ≤ effective_spread mid cfg rm) (hmind : 0 ≤ min_distance_from_mid mid)
    (hmax : 0 < cfg.max_inv_usd) :
    skew_amount mid cfg cfg.max_inv_usd rm = max_allowed_skew mid cfg rm := by
  unfold skew_amount
  rw [div_self (ne_of_gt hmax)]
  rw [show clampQ (1 : ℚ) (-1) 1 = 1 by unfold clampQ; norm_num]
  apply clampQ_of_le (max_allowed_skew_nonneg mid cfg rm)
  unfold max_allowed_skew
  rcases le_total (effective_spread mid cfg rm - min_distance_from_mid mid) 0 with h | h
  · rw [max_eq_right h]
    linarith
  · rw [max_eq_left h]
    linarith

lemma skew_amount_at_neg_cap (mid : ℚ) (cfg : MmAssetConfig) (rm : ℚ)
    (heff : 0 ≤ effective_spread mid cfg rm) (hmind : 0 ≤ min_distance_from_mid mid)
    (hmax : 0 < cfg.max_inv_usd) :
    skew_amount mid cfg (-cfg.max_inv_usd) rm = -(max_allowed_skew mid cfg rm) := by
  unfold skew_amount
  rw [neg_div, div_self (ne_of_gt hmax)]
  rw [show clampQ (-1 : ℚ) (-1) 1 = -1 by unfold clampQ; norm_num]
  apply clampQ_of_ge (max_allowed_skew_nonneg mid cfg rm)
  unfold max_allowed_skew
  rcases le_total (effective_spread mid cfg rm - min_distance_from_mid mid) 0 with h | h
  · rw [max_eq_right h]
    linarith
  · rw [max_eq_left h]
    linarith

/-- C7 (amended): for fixed positive mid, non-halt config and nonnegative regime
multiplier, increasing `inv_usd` shifts every bid and every ask price of the computed
grid downward monotonically (weakly, comparing quotes of equal layer), and the capped
skew shifts strictly upward from `inv = -max_inv_usd` to `inv = +max_inv_usd` whenever
`eff > min_dist` — so the unsnapped quote offsets shift strictly downward.  The original
"strictly shifts every price" fails for the snapped prices: rounding to the tick grid
can map the shifted offsets to the same tick (counterexample below). -/
theorem c7_inventory_skew_monotone (mid : ℚ) (cfg : MmAssetConfig) (rm : ℚ)
    (sb sa : Bool) (ml : ℕ) (hmid : 0 < mid) (hhalt : cfg.regime ≠ "halt")
    (htick : 0 < cfg.tick_size) (hbps : 0 ≤ cfg.base_spread_bps) (hrm : 0 ≤ rm)
    (hmax : 0 < cfg.max_inv_usd) :
    (∀ inv1 inv2 : ℚ, inv1 ≤ inv2 →
      (∀ q1 ∈ (compute_quote_grid mid cfg inv1 rm sb sa ml).bids,
       ∀ q2 ∈ (compute_quote_grid mid cfg inv2 rm sb sa ml).bids,
         q1.layer = q2.layer → q2.price ≤ q1.price) ∧
      (∀ q1 ∈ (compute_quote_grid mid cfg inv1 rm sb sa ml).asks,
       ∀ q2 ∈ (compute_quote_grid mid cfg inv2 rm sb sa ml).asks,
         q1.layer = q2.layer → q2.price ≤ q1.price)) ∧
    (min_distance_from_mid mid < effective_spread mid cfg rm →
      skew_amount mid cfg (-cfg.max_inv_usd) rm < skew_amount mid cfg cfg.max_inv_usd rm) := by
  have heff : 0 ≤ effective_spread mid cfg rm := by
    unfold effective_spread
    positivity
  have hmind : 0 ≤ min_distance_from_mid mid := by
    unfold min_distance_from_mid
    positivity
  constructor
  · intro inv1 inv2 hle
    have hskew := skew_amount_mono mid cfg rm heff hmax hle
    constructor
    · intro q1 hq1 q2 hq2 hlay
      obtain ⟨i, _, hl1, hp1, _⟩ := mem_bids_elim hq1
      obtain ⟨j, _, hl2, hp2, _⟩ := mem_bids_elim hq2
      have hij : i = j := by omega
      subst hij
      rw [hp1, hp2]
      exact snap_to_tick_mono htick (by linarith)
    · intro q1 hq1 q2 hq2 hlay
      obtain ⟨i, _, hl1, hp1, _⟩ := mem_asks_elim hq1
      obtain ⟨j, _, hl2, hp2, _⟩ := mem_asks_elim hq2
      have hij : i = j := by omega
      subst hij
      rw [hp1, hp2]
      exact snap_to_tick_mono htick (by linarith)
  · intro hlt
    rw [skew_amount_at_pos_cap mid cfg rm heff hmind hmax,
      skew_amount_at_neg_cap mid cfg rm heff hmind hmax]
    have : 0 < max_allowed_skew mid cfg rm := by
      unfold max_allowed_skew
      rw [max_eq_left (by linarith)]
      linarith
    linarith

/-- Config used by the C7 counterexample: default config with 1.6 bps base spread, so
that `eff = 0.016 > min_dist = 0.015` at regime multiplier 1. -/
def c7_config : MmAssetConfig :=
  { default_asset_config with base_spread_bps := 8 / 5 }

lemma c7_bids_at_neg_cap :
    (compute_quote_grid 100 c7_config (-20) 1 false false 1).bids
      = [{ side := "bid", layer := 1, price := 100, size_usd := 12, oid := none }] := by
  norm_num [compute_quote_grid, c7_config, default_asset_config, skew_amount,
    max_allowed_skew, effective_spread, min_distance_from_mid, clampQ, snap_to_tick,
    rustRound, List.filterMap, Int.floor_eq_iff]
  rw [if_neg (by decide)]

lemma c7_bids_at_pos_cap :
    (compute_quote_grid 100 c7_config 20 1 false false 1).bids
      = [{ side := "bid", layer := 1, price := 100, size_usd := 12, oid := none }] := by
  norm_num [compute_quote_grid, c7_config, default_asset_config, skew_amount,
    max_allowed_skew, effective_spread, min_distance_from_mid, clampQ, snap_to_tick,
    rustRound, List.filterMap, Int.floor_eq_iff]
  rw [if_neg (by decide)]

/-- C7 counterexample: with 1.6 bps base spread at mid 100 (so `eff > min_dist`), the
layer-1 bid snaps to 100.0 both at inventory −20 (the negative cap) and at +20 (the
positive cap): the snapped price does not strictly decrease. -/
theorem c7_counterexample :
    min_distance_from_mid 100 < effective_spread 100 c7_config 1 ∧
    ¬ (∀ q1 ∈ (compute_quote_grid 100 c7_config (-20) 1 false false 1).bids,
       ∀ q2 ∈ (compute_quote_grid 100 c7_config 20 1 false false 1).bids,
         q1.layer = q2.layer → q2.price < q1.price) := by
  constructor
  · norm_num [min_distance_from_mid, effective_spread, c7_config, default_asset_config]
  · rw [c7_bids_at_neg_cap, c7_bids_at_pos_cap]
    intro h
    have := h _ (List.mem_singleton_self _) _ (List.mem_singleton_self _) rfl
    exact absurd this (by norm_num)

/-- C7 witness: the amended monotonicity statement instantiated on the 1.6 bps config
at mid 100. -/
theorem c7_witness :
    (0 : ℚ) < 100 ∧ c7_config.regime ≠ "halt" ∧ (0 : ℚ) < c7_config.tick_size ∧
    (0 : ℚ) ≤ c7_config.base_spread_bps ∧ (0 : ℚ) ≤ 1 ∧ (0 : ℚ) < c7_config.max_inv_usd ∧
    ((∀ inv1 inv2 : ℚ, inv1 ≤ inv2 →
      (∀ q1 ∈ (compute_quote_grid 100 c7_config inv1 1 false false 1).bids,
       ∀ q2 ∈ (compute_quote_grid 100 c7_config inv2 1 false false 1).bids,
         q1.layer = q2.layer → q2.price ≤ q1.price) ∧
      (∀ q1 ∈ (compute_quote_grid 100 c7_config inv1 1 false false 1).asks,
       ∀ q2 ∈ (compute_quote_grid 100 c7_config inv2 1 false false 1).asks,
         q1.layer = q2.layer → q2.price ≤ q1.price)) ∧
    (min_distance_from_mid 100 < effective_spread 100 c7_config 1 →
      skew_amount 100 c7_config (-c7_config.max_inv_usd) 1
        < skew_amount 100 c7_config c7_config.max_inv_usd 1)) :=
  ⟨by norm_num, by decide, by norm_num [c7_config, default_asset_config],
   by norm_num [c7_config, default_asset_config], by norm_num,
   by norm_num [c7_config, default_asset_config],
   c7_inventory_skew_monotone 100 c7_config 1 false false 1
     (by norm_num) (by decide) (by norm_num [c7_config, default_asset_config])
     (by norm_num [c7_config, default_asset_config]) (by norm_num)
     (by norm_num [c7_config, default_asset_config])⟩

-- ── execution.rs : internal inventory and reconciliation ────────────────────

/-- A live position as returned by the REST clearinghouse (`Position`, exchange.rs:9-21). -/
structure Position where
  coin : String
  direction : String
  size : ℚ
  entry_price : ℚ
  margin_used : ℚ
  leverage : ℚ
  tp_price : ℚ
  sl_price : ℚ
  liquidation_price : ℚ
  entry_time : ℕ
  unrealized_pnl : ℚ
deriving DecidableEq

/-- The engine's internal inventory (`InternalInventory`, execution.rs:131-137).  The Rust
`HashMap<String, f64>` read through `get(..).cloned().unwrap_or(0.0)` is modelled by a
total function with default 0; the `open_orders` book is not read or written by
`reconcile` and is omitted. -/
structure InternalInventory where
  positions : String → ℚ

/-- `InternalInventory::apply_fill` (execution.rs:141-144). -/
def InternalInventory.apply_fill (inv : InternalInventory) (coin : String)
    (is_buy : Bool) (size : ℚ) : InternalInventory :=
  { positions := fun c =>
      if c = coin then
        (if is_buy then inv.positions coin + size else inv.positions coin - size)
      else inv.positions c }

/-- The `signed` local of `InternalInventory::reconcile` (execution.rs:151): LONG
positions count positive, everything else negative. -/
def signed_size (pos : Position) : ℚ :=
  if pos.direction = "LONG" then pos.size else -pos.size

/-- `InternalInventory::reconcile` (execution.rs:148-164): walk the live positions;
whenever the signed live size and the internal entry differ by more than `1e-8`, record
`(coin, internal, live, delta)` and overwrite the internal entry with the live value.
Returns the audit list together with the updated inventory. -/
def InternalInventory.reconcile (inv : InternalInventory) :
    List Position → List (String × ℚ × ℚ × ℚ) × InternalInventory
  | [] => ([], inv)
  | pos :: rest =>
      let signed := signed_size pos
      let internal := inv.positions pos.coin
      let delta := signed - internal
      if 1 / 10 ^ 8 < |delta| then
        let next : InternalInventory :=
          { positions := fun c => if c = pos.coin then signed else inv.positions c }
        let r := next.reconcile rest
        ((pos.coin, internal, signed, delta) :: r.1, r.2)
      else
        inv.reconcile rest

lemma reconcile_unchanged :
    ∀ (live : List Position) (inv : InternalInventory) (c : String),
      c ∉ live.map Position.coin →
      ((inv.reconcile live).2).positions c = inv.positions c := by
  intro live
  induction live with
  | nil => intro inv c _; rfl
  | cons p rest ih =>
      intro inv c hc
      simp only [List.map_cons, List.mem_cons] at hc
      push_neg at hc
      simp only [InternalInventory.reconcile]
      split_ifs with hδ
      · dsimp only
        rw [ih _ c hc.2]
        simp [hc.1]
      · exact ih inv c hc.2

lemma reconcile_close :
    ∀ (live : List Position) (inv : InternalInventory),
      (live.map Position.coin).Nodup →
      ∀ p ∈ live,
        |((inv.reconcile live).2).positions p.coin - signed_size p| ≤ 1 / 10 ^ 8 := by
  intro live
  induction live with
  | nil => intro inv _ p hp; cases hp
  | cons q rest ih =>
      intro inv hnd p hp
      rw [List.map_cons, List.nodup_cons] at hnd
      rcases List.mem_cons.mp hp with h | h
      · subst h
        simp only [InternalInventory.reconcile]
        split_ifs with hδ
        · dsimp only
          rw [reconcile_unchanged rest _ p.coin hnd.1]
          norm_num
        · rw [reconcile_unchanged rest inv p.coin hnd.1, abs_sub_comm]
          exact not_lt.mp hδ
      · simp only [InternalInventory.reconcile]
        split_ifs with hδ
        · exact ih _ hnd.2 p h
        · exact ih inv hnd.2 p h

lemma reconcile_diffs :
    ∀ (live : List Position) (inv : InternalInventory),
      (live.map Position.coin).Nodup →
      (inv.reconcile live).1 = live.filterMap (fun p =>
        if 1 / 10 ^ 8 < |signed_size p - inv.positions p.coin|
        then some (p.coin, inv.positions p.coin, signed_size p,
          signed_size p - inv.positions p.coin)
        else none) := by
  intro live
  induction live with
  | nil => intro inv _; rfl
  | cons q rest ih =>
      intro inv hnd
      rw [List.map_cons, List.nodup_cons] at hnd
      have hcongr : ∀ next : InternalInventory,
          (∀ c, c ≠ q.coin → next.positions c = inv.positions c) →
          rest.filterMap (fun p =>
            if 1 / 10 ^ 8 < |signed_size p - next.positions p.coin|
            then some (p.coin, next.positions p.coin, signed_size p,
              signed_size p - next.positions p.coin)
            else none)
          = rest.filterMap (fun p =>
            if 1 / 10 ^ 8 < |signed_size p - inv.positions p.coin|
            then some (p.coin, inv.positions p.coin, signed_size p,
              signed_size p - inv.positions p.coin)
            else none) := by
        intro next hnext
        apply List.filterMap_congr
        intro p hp
        have hne : p.coin ≠ q.coin := by
          intro hEq
          exact hnd.1 (hEq ▸ List.mem_map_of_mem Position.coin hp)
        rw [hnext p.coin hne]
      simp only [InternalInventory.reconcile]
      rw [List.filterMap_cons]
      split_ifs with hδ
      · dsimp only
        rw [ih _ hnd.2, hcongr _ (fun c hc => by simp [hc])]
      · exact ih inv hnd.2

/-- C3: after `InternalInventory::reconcile(live)` on a live snapshot whose coins are
pairwise distinct (as clearinghouse snapshots are — one position per coin): every live
position's coin ends up within `1e-8` of its signed size (LONG positive, SHORT
negative); the returned audit list is exactly the list of `(coin, internal, live,
delta)` entries for which `|delta| > 1e-8`, in order; and every coin absent from
`live` keeps its previous internal value. -/
theorem c3_reconcile_law (inv : InternalInventory) (live : List Position)
    (hnd : (live.map Position.coin).Nodup) :
    (∀ p ∈ live,
      |((inv.reconcile live).2).positions p.coin - signed_size p| ≤ 1 / 10 ^ 8) ∧
    ((inv.reconcile live).1 = live.filterMap (fun p =>
      if 1 / 10 ^ 8 < |signed_size p - inv.positions p.coin|
      then some (p.coin, inv.positions p.coin, signed_size p,
        signed_size p - inv.positions p.coin)
      else none)) ∧
    (∀ c, c ∉ live.map Position.coin →
      ((inv.reconcile live).2).positions c = inv.positions c) :=
  ⟨reconcile_close live inv hnd, reconcile_diffs live inv hnd,
   fun c hc => reconcile_unchanged live inv c hc⟩

/-- The dark-fill scenario of the spec (S4): internal position 0, live LONG 0.5 BTC. -/
def s4_live_position : Position :=
  { coin := "BTC", direction := "LONG", size := 1 / 2, entry_price := 100,
    margin_used := 0, leverage := 1, tp_price := 0, sl_price := 0,
    liquidation_price := 0, entry_time := 0, unrealized_pnl := 0 }

/-- C3 witness: reconciling the all-zero inventory against a single live LONG 0.5 BTC
position satisfies the reconcile law. -/
theorem c3_witness :
    (([s4_live_position].map Position.coin).Nodup) ∧
    ((∀ p ∈ [s4_live_position],
      |((InternalInventory.reconcile ⟨fun _ => 0⟩ [s4_live_position]).2).positions p.coin -
        signed_size p| ≤ 1 / 10 ^ 8) ∧
    ((InternalInventory.reconcile ⟨fun _ => 0⟩ [s4_live_position]).1
      = [s4_live_position].filterMap (fun p =>
      if 1 / 10 ^ 8
          < |signed_size p - (⟨fun _ => 0⟩ : InternalInventory).positions p.coin|
      then some (p.coin, (⟨fun _ => 0⟩ : InternalInventory).positions p.coin,
        signed_size p,
        signed_size p - (⟨fun _ => 0⟩ : InternalInventory).positions p.coin)
      else none)) ∧
    (∀ c, c ∉ [s4_live_position].map Position.coin →
      ((InternalInventory.reconcile ⟨fun _ => 0⟩ [s4_live_position]).2).positions c
        = (⟨fun _ => 0⟩ : InternalInventory).positions c)) :=
  ⟨by simp, c3_reconcile_law ⟨fun _ => 0⟩ [s4_live_position] (by simp)⟩

-- ── execution.rs : OFI calculator ───────────────────────────────────────────

/-- Order-flow-imbalance detector (`OfiCalculator`, execution.rs:78-83).  The
`VecDeque<(bool, f64)>` is modelled as a list, front first. -/
structure OfiCalculator where
  window : List (Bool × ℚ)
  window_size : ℕ

/-- `OfiCalculator::record` (execution.rs:91-96): drop the front when full, push back. -/
def OfiCalculator.record (o : OfiCalculator) (is_buy : Bool) (size_usd : ℚ) : OfiCalculator :=
  { o with window :=
      (if o.window_size ≤ o.window.length then o.window.tail else o.window)
        ++ [(is_buy, size_usd)] }

/-- `OfiCalculator::ofi_fraction` (execution.rs:100-114). -/
def OfiCalculator.ofi_fraction (o : OfiCalculator) : ℚ :=
  if o.window.isEmpty then 0
  else if o.window.length < 20 then 0
  else
    let buy_vol := ((o.window.filter fun p => p.1).map fun p => p.2).sum
    let sell_vol := ((o.window.filter fun p => !p.1).map fun p => p.2).sum
    let total := buy_vol + sell_vol
    if total ≤ 5000 then 0
    else (buy_vol - sell_vol) / total

/-- `OfiCalculator::should_cancel_bids` (execution.rs:117-119). -/
def OfiCalculator.should_cancel_bids (o : OfiCalculator) (threshold : ℚ) : Bool :=
  decide (o.ofi_fraction < -threshold)

/-- `OfiCalculator::should_cancel_asks` (execution.rs:122-124). -/
def OfiCalculator.should_cancel_asks (o : OfiCalculator) (threshold : ℚ) : Bool :=
  decide (threshold < o.ofi_fraction)

lemma buy_vol_add_sell_vol (l : List (Bool × ℚ)) :
    ((l.filter fun p => p.1).map fun p => p.2).sum
      + ((l.filter fun p => !p.1).map fun p => p.2).sum
      = (l.map fun p => p.2).sum := by
  induction l with
  | nil => simp
  | cons a l ih =>
      cases hb : a.1 <;>
        simp only [List.filter_cons, hb, Bool.not_false, Bool.not_true, if_true, if_false,
          Bool.false_eq_true, Bool.true_eq_false, List.map_cons, List.sum_cons] <;>
        simp only [← ih] <;> ring

/-- C8: `ofi_fraction` returns 0 whenever the window holds fewer than 20 samples or the
total recorded volume is at most 5000 USD, and otherwise returns
`(Σbuy − Σsell) / (Σbuy + Σsell)`; `should_cancel_bids th` holds iff the fraction is
below `−th`, and `should_cancel_asks th` holds iff it exceeds `th`. -/
theorem c8_ofi_gating (o : OfiCalculator) (th : ℚ) :
    (o.window.length < 20 ∨ (o.window.map fun p => p.2).sum ≤ 5000 →
      o.ofi_fraction = 0) ∧
    (20 ≤ o.window.length → 5000 < (o.window.map fun p => p.2).sum →
      o.ofi_fraction =
        (((o.window.filter fun p => p.1).map fun p => p.2).sum
            - ((o.window.filter fun p => !p.1).map fun p => p.2).sum)
          / (((o.window.filter fun p => p.1).map fun p => p.2).sum
            + ((o.window.filter fun p => !p.1).map fun p => p.2).sum)) ∧
    (o.should_cancel_bids th = true ↔ o.ofi_fraction < -th) ∧
    (o.should_cancel_asks th = true ↔ th < o.ofi_fraction) := by
  refine ⟨?_, ?_, ?_, ?_⟩
  · intro h
    simp only [OfiCalculator.ofi_fraction]
    split_ifs with h1 h2 h3
    · rfl
    · rfl
    · rfl
    · exfalso
      rcases h with h | h
      · exact h2 h
      · rw [buy_vol_add_sell_vol] at h3
        exact h3 h
  · intro hlen hsum
    simp only [OfiCalculator.ofi_fraction]
    split_ifs with h1 h2 h3
    · exfalso
      rw [List.isEmpty_iff] at h1
      rw [h1] at hlen
      simp at hlen
    · omega
    · rw [buy_vol_add_sell_vol] at h3
      linarith
    · rfl
  · unfold OfiCalculator.should_cancel_bids
    exact decide_eq_true_iff
  · unfold OfiCalculator.should_cancel_asks
    exact decide_eq_true_iff

/-- C8 witness: a window of 20 taker buys of 300 USD each activates the OFI gate and
yields fraction `(6000 − 0) / 6000`. -/
theorem c8_witness :
    20 ≤ (List.replicate 20 ((true : Bool), (300 : ℚ))).length ∧
    5000 < ((List.replicate 20 ((true : Bool), (300 : ℚ))).map fun p => p.2).sum ∧
    (OfiCalculator.mk (List.replicate 20 ((true : Bool), (300 : ℚ))) 200).ofi_fraction =
      ((((List.replicate 20 ((true : Bool), (300 : ℚ))).filter fun p => p.1).map
            fun p => p.2).sum
          - (((List.replicate 20 ((true : Bool), (300 : ℚ))).filter fun p => !p.1).map
            fun p => p.2).sum)
        / ((((List.replicate 20 ((true : Bool), (300 : ℚ))).filter fun p => p.1).map
            fun p => p.2).sum
          + (((List.replicate 20 ((true : Bool), (300 : ℚ))).filter fun p => !p.1).map
            fun p => p.2).sum) :=
  ⟨by norm_num,
   by norm_num [List.map_replicate, List.sum_replicate, nsmul_eq_mul],
   ((c8_ofi_gating (OfiCalculator.mk (List.replicate 20 ((true : Bool), (300 : ℚ))) 200)
      (7 / 10)).2.1
     (by norm_num)
     (by norm_num [List.map_replicate, List.sum_replicate, nsmul_eq_mul]))⟩

-- ── execution.rs : engine config, stats and cancel_all ──────────────────────

/-- Engine configuration (`MmEngineConfig`, execution.rs:21-31). -/
structure MmEngineConfig where
  global_halt_drawdown_pct : ℚ
  max_cancel_fill_ratio : ℚ
  ofi_halt_threshold : ℚ
  shadow_mode : Bool
deriving DecidableEq

/-- Session statistics (`SessionStats`, execution.rs:48-54). -/
structure SessionStats where
  total_cancels : ℕ
  total_fills : ℕ
  daily_pnl_usd : ℚ
  starting_balance : ℚ
deriving DecidableEq

/-- The execution engine state touched by `cancel_all` (`MmExecutionEngine`,
execution.rs:169-179).  The boxed exchange client, risk manager and OFI trackers are
external effects or unused here; the outcome of the exchange's `cancel_all_orders`
call is passed in explicitly as an `Except` value. -/
structure MmExecutionEngine where
  config : MmEngineConfig
  stats : SessionStats
  inventory : InternalInventory
  session_id : String
  halted : Bool

/-- `MmExecutionEngine::cancel_all` (execution.rs:205-224): no-op returning 0 in shadow
mode; otherwise on success add the returned count to `total_cancels` and return it, on
error set `halted` and return 0.  The model returns a plain pair — like the Rust
function, which returns `u64` and never raises. -/
def MmExecutionEngine.cancel_all (eng : MmExecutionEngine)
    (cancel_all_orders_result : Except String ℕ) : ℕ × MmExecutionEngine :=
  if eng.config.shadow_mode then (0, eng)
  else
    match cancel_all_orders_result with
    | .ok n =>
        (n, { eng with stats := { eng.stats with
                total_cancels := eng.stats.total_cancels + n } })
    | .error _ => (0, { eng with halted := true })

/-- C5: `cancel_all` never raises: in shadow mode it returns 0 and leaves the engine
unchanged; otherwise on `Ok n` it adds `n` to `stats.total_cancels` and returns `n`,
and on an error it sets `halted` and returns 0. -/
theorem c5_cancel_all_contract (eng : MmExecutionEngine) (r : Except String ℕ) :
    (eng.config.shadow_mode = true → eng.cancel_all r = (0, eng)) ∧
    (∀ n : ℕ, eng.config.shadow_mode = false → r = .ok n →
      eng.cancel_all r =
        (n, { eng with stats := { eng.stats with
                total_cancels := eng.stats.total_cancels + n } })) ∧
    (∀ e : String, eng.config.shadow_mode = false → r = .error e →
      eng.cancel_all r = (0, { eng with halted := true })) := by
  refine ⟨?_, ?_, ?_⟩
  · intro h
    unfold MmExecutionEngine.cancel_all
    rw [if_pos h]
  · intro n h hr
    unfold MmExecutionEngine.cancel_all
    rw [if_neg (by simp [h]), hr]
  · intro e h hr
    unfold MmExecutionEngine.cancel_all
    rw [if_neg (by simp [h]), hr]

/-- A concrete live-mode engine used by the C5 witness. -/
def c5_live_engine : MmExecutionEngine :=
  { config := { global_halt_drawdown_pct := 1 / 20, max_cancel_fill_ratio := 50,
                ofi_halt_threshold := 7 / 10, shadow_mode := false },
    stats := { total_cancels := 5, total_fills := 2, daily_pnl_usd := 0,
               starting_balance := 50 },
    inventory := ⟨fun _ => 0⟩, session_id := "session-0", halted := false }

/-- C5 witness: on the concrete live engine, a successful cancel of 3 orders returns 3
and bumps `total_cancels` from 5 to 8. -/
theorem c5_witness :
    c5_live_engine.config.shadow_mode = false ∧
    (Except.ok 3 : Except String ℕ) = Except.ok 3 ∧
    c5_live_engine.cancel_all (Except.ok 3) =
      (3, { c5_live_engine with stats := { c5_live_engine.stats with
              total_cancels := c5_live_engine.stats.total_cancels + 3 } }) :=
  ⟨rfl, rfl,
   (c5_cancel_all_contract c5_live_engine (Except.ok 3)).2.1 3 rfl rfl⟩

-- ── market_maker.rs : shadow fills and shadow session ───────────────────────

/-- A simulated maker fill (`ShadowFill`, market_maker.rs:373-381). -/
structure ShadowFill where
  coin : String
  side : String
  layer : ℕ
  price : ℚ
  size_usd : ℚ
  fill_ts_ms : ℕ
  maker_rebate_usd : ℚ
deriving DecidableEq

/-- `ShadowFill::new` (market_maker.rs:384-395): the maker rebate is
`size_usd * 0.0001` (0.01 %). -/
def ShadowFill.new (coin : String) (q : GridQuote) (ts_ms : ℕ) : ShadowFill :=
  { coin := coin, side := q.side, layer := q.layer, price := q.price,
    size_usd := q.size_usd, fill_ts_ms := ts_ms,
    maker_rebate_usd := q.size_usd * (1 / 10000) }

/-- Session-level shadow performance (`ShadowSession`, market_maker.rs:400-405). -/
structure ShadowSession where
  fills : List ShadowFill
  total_volume_usd : ℚ
  total_rebates_usd : ℚ
  total_pnl_usd : ℚ
deriving DecidableEq

/-- The `Default` instance of `ShadowSession` (derived in market_maker.rs:399). -/
def default_shadow_session : ShadowSession :=
  { fills := [], total_volume_usd := 0, total_rebates_usd := 0, total_pnl_usd := 0 }

/-- `ShadowSession::record_fill` (market_maker.rs:408-418). -/
def ShadowSession.record_fill (s : ShadowSession) (fill : ShadowFill) : ShadowSession :=
  { fills := s.fills ++ [fill],
    total_volume_usd := s.total_volume_usd + fill.size_usd,
    total_rebates_usd := s.total_rebates_usd + fill.maker_rebate_usd,
    total_pnl_usd := s.total_pnl_usd + fill.maker_rebate_usd }

/-- The C10 session invariant: shadow PnL equals total rebates, which equals the sum of
the recorded fills' maker rebates, and total volume is the sum of their sizes — shadow
PnL counts maker rebates only, no price PnL. -/
def shadow_session_invariant (s : ShadowSession) : Prop :=
  s.total_pnl_usd = s.total_rebates_usd ∧
  s.total_rebates_usd = (s.fills.map ShadowFill.maker_rebate_usd).sum ∧
  s.total_volume_usd = (s.fills.map ShadowFill.size_usd).sum

/-- C10: the empty session satisfies the invariant, every `record_fill` preserves it,
and every fill built by `ShadowFill::new` carries rebate `size_usd × 0.0001`. -/
theorem c10_shadow_session_rebate_invariant :
    shadow_session_invariant default_shadow_session ∧
    (∀ (s : ShadowSession) (f : ShadowFill),
      shadow_session_invariant s → shadow_session_invariant (s.record_fill f)) ∧
    (∀ (coin : String) (q : GridQuote) (ts : ℕ),
      (ShadowFill.new coin q ts).maker_rebate_usd = q.size_usd * (1 / 10000)) := by
  refine ⟨?_, ?_, ?_⟩
  · simp [shadow_session_invariant, default_shadow_session]
  · rintro s f ⟨h1, h2, h3⟩
    refine ⟨?_, ?_, ?_⟩ <;>
      simp [ShadowSession.record_fill, h1, h2, h3]
  · intro coin q ts
    rfl

/-- A concrete grid quote used by the C10 witness. -/
def c10_quote : GridQuote :=
  { side := "bid", layer := 1, price := 100, size_usd := 12, oid := none }

/-- C10 witness: recording one concrete fill on the empty session preserves the
invariant. -/
theorem c10_witness :
    shadow_session_invariant default_shadow_session ∧
    shadow_session_invariant (default_shadow_session.record_fill
      (ShadowFill.new "BTC" c10_quote 1700000000000)) :=
  ⟨by simp [shadow_session_invariant, default_shadow_session],
   (c10_shadow_session_rebate_invariant.2.1 default_shadow_session
     (ShadowFill.new "BTC" c10_quote 1700000000000)
     (by simp [shadow_session_invariant, default_shadow_session]))⟩

-- ── signing.rs : action wire formats and key order ──────────────────────────

/-- A JSON / msgpack document.  Objects and maps keep their key-value pairs in
insertion order, exactly as `serde_json::Map` (preserve-order feature) and
`rmp_serde`'s `with_struct_map` mode do on the wire. -/
inductive JValue where
  | str : String → JValue
  | num : ℕ → JValue
  | bool : Bool → JValue
  | arr : List JValue → JValue
  | obj : List (String × JValue) → JValue

/-- Keys of a JSON object, in order; `[]` on non-objects. -/
def JValue.objKeys : JValue → List String
  | .obj l => l.map Prod.fst
  | _ => []

/-- `LimitOrderWire` (signing.rs:41-45). -/
structure LimitOrderWire where
  tif : String
deriving DecidableEq

/-- `OrderTypeWire` (signing.rs:35-39). -/
inductive OrderTypeWire where
  | limit : LimitOrderWire → OrderTypeWire
deriving DecidableEq

/-- `OrderRequest` (signing.rs:24-33). -/
structure OrderRequest where
  asset : ℕ
  is_buy : Bool
  limit_px : String
  sz : String
  reduce_only : Bool
  order_type : OrderTypeWire
deriving DecidableEq

/-- `ActionWire` (signing.rs:47-52). -/
structure ActionWire where
  type : String
  orders : List OrderRequest
  grouping : String
deriving DecidableEq

/-- The `tif` string extracted from an order type (the `match` of signing.rs:109-111
and signing.rs:229-231). -/
def tif_string : OrderTypeWire → String
  | .limit l => l.tif

/-- The msgpack map for one order, as hashed by `compute_action_hash`
(signing.rs:108-122): `rmp_serde`'s `with_struct_map` serializer emits the fields of
`OrderWireMsgPack` (signing.rs:58-66) as a map in declaration order `a,b,p,s,r,t`,
with `t = {limit: {tif}}` (signing.rs:68-76). -/
def order_msgpack_doc (o : OrderRequest) : JValue :=
  .obj [("a", .num o.asset), ("b", .bool o.is_buy), ("p", .str o.limit_px),
        ("s", .str o.sz), ("r", .bool o.reduce_only),
        ("t", .obj [("limit", .obj [("tif", .str (tif_string o.order_type))])])]

/-- The msgpack map for the whole action, as hashed by `compute_action_hash`
(signing.rs:124-134): the fields of `ActionMsgPack` (signing.rs:80-85) are emitted as
a map in declaration order `type, orders, grouping`. -/
def action_msgpack_doc (a : ActionWire) : JValue :=
  .obj [("type", .str a.type), ("orders", .arr (a.orders.map order_msgpack_doc)),
        ("grouping", .str a.grouping)]

/-- The per-order JSON object built by `sign_l1_action` (signing.rs:228-248) with
explicit `serde_json::Map` inserts in the order `a, b, p, s, r, t`. -/
def order_json (o : OrderRequest) : JValue :=
  .obj [("a", .num o.asset), ("b", .bool o.is_buy), ("p", .str o.limit_px),
        ("s", .str o.sz), ("r", .bool o.reduce_only),
        ("t", .obj [("limit", .obj [("tif", .str (tif_string o.order_type))])])]

/-- The JSON action returned by `sign_l1_action` (signing.rs:250-258): outer keys
inserted in the order `type, orders, grouping`.  The signature half of
`sign_l1_action` (keccak-256 and secp256k1, signing.rs:161-217) is an external
cryptographic effect and is not modelled; the nonce parameter is kept to mirror the
source signature and does not enter the JSON. -/
def sign_l1_action_json (a : ActionWire) (nonce : ℕ) : JValue :=
  .obj [("type", .str a.type), ("orders", .arr (a.orders.map order_json)),
        ("grouping", .str a.grouping)]

lemma order_json_eq_msgpack (o : OrderRequest) : order_json o = order_msgpack_doc o := rfl

/-- C4: for every order action and nonce, the JSON action built by `sign_l1_action`
has outer keys exactly `type, orders, grouping` in that order; every order entry has
keys exactly `a, b, p, s, r, t` in that order, with `t` of the shape
`{limit: {tif}}`; and the JSON document coincides (keys, order and values) with the
msgpack map that `compute_action_hash` packs and hashes. -/
theorem c4_sign_l1_action_key_order (a : ActionWire) (nonce : ℕ) :
    (sign_l1_action_json a nonce).objKeys = ["type", "orders", "grouping"] ∧
    (∀ o ∈ a.orders,
      (order_json o).objKeys = ["a", "b", "p", "s", "r", "t"] ∧
      ∃ tif : String,
        order_json o = .obj [("a", .num o.asset), ("b", .bool o.is_buy),
          ("p", .str o.limit_px), ("s", .str o.sz), ("r", .bool o.reduce_only),
          ("t", .obj [("limit", .obj [("tif", .str tif)])])]) ∧
    sign_l1_action_json a nonce = action_msgpack_doc a := by
  refine ⟨rfl, ?_, ?_⟩
  · intro o _
    exact ⟨rfl, tif_string o.order_type, rfl⟩
  · unfold sign_l1_action_json action_msgpack_doc
    rw [List.map_congr_left fun o _ => order_json_eq_msgpack o]

/-- A concrete order action used by the C4 witness. -/
def c4_action : ActionWire :=
  { type := "order",
    orders := [{ asset := 5, is_buy := true, limit_px := "99.99", sz := "0.12",
                 reduce_only := false, order_type := .limit { tif := "Alo" } }],
    grouping := "na" }

/-- C4 witness: the key-order contract instantiated on a concrete one-order action. -/
theorem c4_witness :
    (sign_l1_action_json c4_action 1700000000001).objKeys = ["type", "orders", "grouping"] ∧
    (∀ o ∈ c4_action.orders,
      (order_json o).objKeys = ["a", "b", "p", "s", "r", "t"] ∧
      ∃ tif : String,
        order_json o = .obj [("a", .num o.asset), ("b", .bool o.is_buy),
          ("p", .str o.limit_px), ("s", .str o.sz), ("r", .bool o.reduce_only),
          ("t", .obj [("limit", .obj [("tif", .str tif)])])]) ∧
    sign_l1_action_json c4_action 1700000000001 = action_msgpack_doc c4_action :=
  c4_sign_l1_action_key_order c4_action 1700000000001

-- ── exchange.rs : significant-figure price rounding ─────────────────────────

lemma rustRound_abs_le (q : ℚ) : |(rustRound q : ℚ)| ≤ |q| + 1 / 2 := by
  have h := rustRound_sub_le q
  calc |(rustRound q : ℚ)| = |((rustRound q : ℚ) - q) + q| := by ring_nf
    _ ≤ |(rustRound q : ℚ) - q| + |q| := abs_add _ _
    _ ≤ |q| + 1 / 2 := by linarith

lemma int_log_eq {b : ℕ} (hb : 1 < b) {r : ℚ} (hr : 0 < r) {k : ℤ}
    (h1 : (b : ℚ) ^ k ≤ r) (h2 : r < (b : ℚ) ^ (k + 1)) : Int.log b r = k := by
  have hbq : (1 : ℚ) < (b : ℚ) := by exact_mod_cast hb
  apply le_antisymm
  · by_contra h
    push_neg at h
    have hup : (b : ℚ) ^ (k + 1) ≤ (b : ℚ) ^ (Int.log b r) :=
      zpow_le_zpow_right₀ hbq.le (by omega)
    exact absurd ((hup.trans (Int.zpow_log_le_self hb hr)).trans_lt h2) (lt_irrefl _)
  · exact (Int.zpow_le_iff_le_log hb hr).mp h1

/-- The `val.abs().log10().floor() as i32` of exchange.rs:874, modelled exactly:
for a nonzero rational, `⌊log₁₀ |val|⌋ = Int.log 10 |val|`. -/
def floor_log10_abs (val : ℚ) : ℤ :=
  Int.log 10 |val|

/-- `round_to_5_sig_figs` (exchange.rs:870-878): keep `5 - 1 - ⌊log₁₀|val|⌋` decimal
places, clamped to `[0, 10]`, rounding half away from zero. -/
def round_to_5_sig_figs (val : ℚ) : ℚ :=
  if val = 0 then 0
  else
    let d : ℤ := 5 - 1 - floor_log10_abs val
    let d := clampI d 0 10
    let factor : ℚ := (10 : ℚ) ^ d
    (rustRound (val * factor) : ℚ) / factor

/-- Modelled from the claim's words: rounding a nonzero value to exactly five
significant decimal figures means keeping `5 - 1 - ⌊log₁₀|val|⌋` decimal places with
no clamp at all. -/
def five_sig_figs_spec (val : ℚ) : ℚ :=
  if val = 0 then 0
  else
    let d : ℤ := 5 - 1 - floor_log10_abs val
    (rustRound (val * (10 : ℚ) ^ d) : ℚ) / (10 : ℚ) ^ d

/-- C6 (amended): for nonzero `x`, `round_to_5_sig_figs x` is `x` rounded (half away
from zero) to `d` decimal places where `d = clamp(4 − ⌊log₁₀|x|⌋, 0, 10)`: the result
is an integer multiple of `10^(−d)` lying within `10^(−d)/2` of `x`, and whenever
`|x| < 10^5` (so the lower clamp does not engage) the retained integer has at most
five significant digits (`|n| ≤ 10^5`).  The original claim fails for `|x| ≥ 10^5`:
there the clamp to `d = 0` rounds to the nearest integer, which can carry more than
five significant figures (counterexample below). -/
theorem c6_round_to_5_sig_figs (x : ℚ) (hx : x ≠ 0) :
    (∃ n : ℤ, round_to_5_sig_figs x
        = (n : ℚ) / (10 : ℚ) ^ (clampI (5 - 1 - floor_log10_abs x) 0 10) ∧
      |round_to_5_sig_figs x - x|
        ≤ 1 / (2 * (10 : ℚ) ^ (clampI (5 - 1 - floor_log10_abs x) 0 10))) ∧
    (|x| < 10 ^ 5 →
      ∃ n : ℤ, |n| ≤ 10 ^ 5 ∧
        round_to_5_sig_figs x
          = (n : ℚ) / (10 : ℚ) ^ (clampI (5 - 1 - floor_log10_abs x) 0 10)) := by
  have hxpos : 0 < |x| := abs_pos.mpr hx
  set L : ℤ := floor_log10_abs x with hLdef
  set d : ℤ := clampI (5 - 1 - L) 0 10 with hddef
  have hfac : (0 : ℚ) < (10 : ℚ) ^ d := zpow_pos (by norm_num) d
  have hval : round_to_5_sig_figs x = (rustRound (x * (10 : ℚ) ^ d) : ℚ) / (10 : ℚ) ^ d := by
    unfold round_to_5_sig_figs
    rw [if_neg hx]
  constructor
  · refine ⟨rustRound (x * (10 : ℚ) ^ d), hval, ?_⟩
    rw [hval]
    have h := rustRound_sub_le (x * (10 : ℚ) ^ d)
    have hEq : (rustRound (x * (10 : ℚ) ^ d) : ℚ) / (10 : ℚ) ^ d - x
        = ((rustRound (x * (10 : ℚ) ^ d) : ℚ) - x * (10 : ℚ) ^ d) / (10 : ℚ) ^ d := by
      field_simp
      ring
    rw [hEq, abs_div, abs_of_pos hfac, div_le_div_iff₀ hfac (by positivity)]
    calc |(rustRound (x * (10 : ℚ) ^ d) : ℚ) - x * (10 : ℚ) ^ d| * (2 * (10 : ℚ) ^ d)
        ≤ (1 / 2) * (2 * (10 : ℚ) ^ d) := by
          apply mul_le_mul_of_nonneg_right h
          positivity
      _ = 1 * (10 : ℚ) ^ d := by ring
  · intro hsmall
    have hL2 : |x| < (10 : ℚ) ^ (L + 1) := by
      rw [hLdef]
      exact Int.lt_zpow_succ_log_self (by norm_num) _
    have hL4 : L ≤ 4 := by
      by_contra hcon
      push_neg at hcon
      have h5 : (10 : ℚ) ^ (5 : ℤ) ≤ (10 : ℚ) ^ L := zpow_le_zpow_right₀ (by norm_num) (by omega)
      have hlog : (10 : ℚ) ^ L ≤ |x| := by
        rw [hLdef]
        exact Int.zpow_log_le_self (by norm_num) hxpos
      have : (10 : ℚ) ^ (5 : ℤ) ≤ |x| := h5.trans hlog
      rw [show ((10 : ℚ) ^ (5 : ℤ)) = 10 ^ (5 : ℕ) by norm_num] at this
      linarith
    have hd0 : 0 ≤ d := by
      rw [hddef]
      unfold clampI
      split_ifs <;> omega
    have key : |x * (10 : ℚ) ^ d| < 10 ^ (5 : ℕ) := by
      rw [abs_mul, abs_of_pos hfac]
      rcases le_or_lt (5 - 1 - L) 10 with hcase | hcase
      · have hd : d = 4 - L := by
          rw [hddef]
          unfold clampI
          split_ifs <;> omega
        have hmul : |x| * (10 : ℚ) ^ d < (10 : ℚ) ^ (L + 1) * (10 : ℚ) ^ d :=
          mul_lt_mul_of_pos_right hL2 hfac
        have hpow : (10 : ℚ) ^ (L + 1) * (10 : ℚ) ^ d = (10 : ℚ) ^ (5 : ℤ) := by
          rw [hd, ← zpow_add₀ (by norm_num : (10 : ℚ) ≠ 0)]
          congr 1
          omega
        rw [hpow] at hmul
        calc |x| * (10 : ℚ) ^ d < (10 : ℚ) ^ (5 : ℤ) := hmul
          _ = 10 ^ (5 : ℕ) := by norm_num
      · have hd : d = 10 := by
          rw [hddef]
          unfold clampI
          split_ifs <;> omega
        have hmul : |x| * (10 : ℚ) ^ d < (10 : ℚ) ^ (L + 1) * (10 : ℚ) ^ d :=
          mul_lt_mul_of_pos_right hL2 hfac
        have hpow : (10 : ℚ) ^ (L + 1) * (10 : ℚ) ^ d = (10 : ℚ) ^ (L + 11) := by
          rw [hd, ← zpow_add₀ (by norm_num : (10 : ℚ) ≠ 0)]
          congr 1
          omega
        have hexp : (10 : ℚ) ^ (L + 11) ≤ (10 : ℚ) ^ (4 : ℤ) :=
          zpow_le_zpow_right₀ (by norm_num) (by omega)
        rw [hpow] at hmul
        calc |x| * (10 : ℚ) ^ d < (10 : ℚ) ^ (4 : ℤ) := hmul.trans_le hexp
          _ ≤ 10 ^ (5 : ℕ) := by norm_num
    refine ⟨rustRound (x * (10 : ℚ) ^ d), ?_, hval⟩
    have habs := rustRound_abs_le (x * (10 : ℚ) ^ d)
    have hq : |(rustRound (x * (10 : ℚ) ^ d) : ℚ)| < 10 ^ (5 : ℕ) + 1 := by linarith
    have hcast : |(rustRound (x * (10 : ℚ) ^ d) : ℚ)| = ((|rustRound (x * (10 : ℚ) ^ d)| : ℤ) : ℚ) := by
      push_cast
      rfl
    rw [hcast] at hq
    have : |rustRound (x * (10 : ℚ) ^ d)| < 10 ^ (5 : ℕ) + 1 := by exact_mod_cast hq
    omega

/-- C6 counterexample: `round_to_5_sig_figs 1234567 = 1234567` (the decimal count
clamps to 0, rounding to the nearest integer), while genuine 5-significant-figure
rounding gives 1234600 — the result keeps seven significant figures. -/
theorem c6_counterexample :
    round_to_5_sig_figs 1234567 = 1234567 ∧
    five_sig_figs_spec 1234567 = 1234600 ∧
    (1234567 : ℚ) ≠ 1234600 := by
  have hlog : floor_log10_abs (1234567 : ℚ) = 6 := by
    unfold floor_log10_abs
    rw [show |(1234567 : ℚ)| = 1234567 by norm_num]
    apply int_log_eq (by norm_num) (by norm_num) <;> norm_num
  refine ⟨?_, ?_, by norm_num⟩
  · unfold round_to_5_sig_figs
    rw [if_neg (by norm_num), hlog]
    norm_num [clampI, rustRound, Int.floor_eq_iff]
  · unfold five_sig_figs_spec
    rw [if_neg (by norm_num), hlog]
    norm_num [rustRound, Int.floor_eq_iff]

/-- C6 witness: the amended rounding contract instantiated at `x = 123.456`. -/
theorem c6_witness :
    (123456 / 1000 : ℚ) ≠ 0 ∧
    ((∃ n : ℤ, round_to_5_sig_figs (123456 / 1000 : ℚ)
        = (n : ℚ) / (10 : ℚ) ^ (clampI (5 - 1 - floor_log10_abs (123456 / 1000 : ℚ)) 0 10) ∧
      |round_to_5_sig_figs (123456 / 1000 : ℚ) - (123456 / 1000 : ℚ)|
        ≤ 1 / (2 * (10 : ℚ) ^ (clampI (5 - 1 - floor_log10_abs (123456 / 1000 : ℚ)) 0 10))) ∧
    (|(123456 / 1000 : ℚ)| < 10 ^ 5 →
      ∃ n : ℤ, |n| ≤ 10 ^ 5 ∧
        round_to_5_sig_figs (123456 / 1000 : ℚ)
          = (n : ℚ) / (10 : ℚ) ^ (clampI (5 - 1 - floor_log10_abs (123456 / 1000 : ℚ)) 0 10))) :=
  ⟨by norm_num, c6_round_to_5_sig_figs (123456 / 1000 : ℚ) (by norm_num)⟩

end MmEngine
